import Mathlib

/-!
Verification development for the mcp-perforce-server command-execution core.

The definitions below are shallow embeddings of the TypeScript sources:
* `src/p4/security.ts` (`SecurityManager.checkRateLimit`, `SecurityManager.sanitizeInput`),
* `src/p4/config.ts` (`P4Config.findConfig`, `P4Config.searchUpward`,
  `P4Config.parseConfigFile`, `P4Config.buildEnvironment`),
* `src/p4/parse.ts` (`parseZtagOutput`, `parseValue`),
* `src/p4/runner.ts` (`P4Runner.run`, `P4Runner.parseOutput`,
  `P4Runner.parseZtagOutput`, `P4Runner.parseTextOutput`,
  `P4Runner.extractConfigFromEnv`, `P4Runner.mapError`).

Machine-independent conventions used throughout:
* JavaScript strings are Lean `String`s (all inputs of interest are ASCII, so
  UTF-16 index arithmetic coincides with character counts);
* JavaScript objects used as string-keyed maps are association lists with
  insert-or-overwrite semantics preserving first-insertion order (`objInsert`);
* JavaScript timestamps (`Date.now()` values) are `Nat`;
* truthiness of a string is non-emptiness.
-/

set_option autoImplicit false

/-! ### Small string utilities (semantics of the JS string primitives used) -/

/-- Decidable substring occurrence on character lists: `listIsSeg sub l` holds when
`sub` occurs as a contiguous segment of `l` (the semantics of JS `String.includes`). -/
def listStartsWith : List Char → List Char → Bool
  | [], _ => true
  | _ :: _, [] => false
  | c :: cs, d :: ds => c = d && listStartsWith cs ds

/-- JS `String.prototype.includes`: `sub` occurs contiguously in `l`. -/
def listIsSeg (sub l : List Char) : Bool :=
  match l with
  | [] => listStartsWith sub []
  | _ :: t => listStartsWith sub l || listIsSeg sub t

/-- JS `s.includes(sub)`. -/
def strContains (s sub : String) : Bool :=
  listIsSeg sub.toList s.toList

/-- JS `s.startsWith(p)`. -/
def strStartsWith (s p : String) : Bool :=
  listStartsWith p.toList s.toList

/-- JS `s.length === 0` (character count - the inputs of interest are ASCII). -/
def strIsEmpty (s : String) : Bool :=
  s.toList.isEmpty

/-- JS `s.length`. -/
def strLen (s : String) : Nat :=
  s.toList.length

/-- JS `s.substring(n)` / Lean character drop. -/
def strDropChars (s : String) (n : Nat) : String :=
  String.mk (s.toList.drop n)

/-- JS `s.substring(0, n)` / Lean character take. -/
def strTakeChars (s : String) (n : Nat) : String :=
  String.mk (s.toList.take n)

/-- JS `s.trim()`: strip leading and trailing whitespace. -/
def jsTrim (s : String) : String :=
  String.mk (((s.toList.dropWhile Char.isWhitespace).reverse.dropWhile Char.isWhitespace).reverse)

/-- Split a character list at every occurrence of `c` (JS `s.split(c)` for a
one-character separator, which is the only kind the sources use). -/
def listSplitOnChar (c : Char) : List Char → List (List Char)
  | [] => [[]]
  | d :: t =>
    let r := listSplitOnChar c t
    if d = c then [] :: r
    else
      match r with
      | [] => [[d]]
      | h :: t' => (d :: h) :: t'

/-- JS `s.split(c)` for a one-character separator. -/
def strSplitOnChar (c : Char) (s : String) : List String :=
  (listSplitOnChar c s.toList).map String.mk

/-- JS `parts.join(c)` (inverse of `strSplitOnChar`). -/
def strJoinChar (c : Char) (ps : List String) : String :=
  String.mk (List.intercalate [c] (ps.map String.toList))

/-- JS `s.toLowerCase()` on ASCII text. -/
def strToLower (s : String) : String :=
  String.mk (s.toList.map Char.toLower)

/-- Decimal value of an all-digit character string (the value `parseInt` /
`parseFloat` assigns to each digit group of a numeric literal). -/
def digitsToNat (s : String) : Nat :=
  s.toList.foldl (fun n c => n * 10 + (c.toNat - 48)) 0

/-- JS object property write `o[k] = v`: overwrite in place if the key exists
(keeping first-insertion order), else append. -/
def objInsert {α : Type} (r : List (String × α)) (k : String) (v : α) : List (String × α) :=
  match r with
  | [] => [(k, v)]
  | (k', v') :: t => if k' = k then (k, v) :: t else (k', v') :: objInsert t k v

/-! ### `SecurityManager.checkRateLimit` (src/p4/security.ts lines 65-115) -/

/-- `RateLimitConfig` from security.ts. -/
structure RateLimitConfig where
  maxRequests : Nat
  windowMs : Nat
  blockDurationMs : Nat
deriving DecidableEq

/-- One entry of `SecurityManager.rateLimitStore`. -/
structure RateRecord where
  count : Nat
  resetTime : Nat
  blockedUntil : Option Nat := none
deriving DecidableEq

/-- The value returned by `checkRateLimit` (`remaining` can go negative in
JS, e.g. for a zero-maximum configuration, so it is an `Int`). -/
structure RateLimitResult where
  allowed : Bool
  remaining : Int
  resetTime : Nat
  blockedUntil : Option Nat := none
deriving DecidableEq

/-- `SecurityManager.checkRateLimit`, made pure: the mutable store entry for the
identifier enters as `record` and the updated entry is returned alongside the
result.  `enabled` is `complianceConfig.enableRateLimiting`; `now` is `Date.now()`. -/
def checkRateLimit (enabled : Bool) (cfg : RateLimitConfig) (now : Nat)
    (record : Option RateRecord) : RateLimitResult × Option RateRecord :=
  if !enabled then
    ({ allowed := true, remaining := (cfg.maxRequests : Int),
       resetTime := now + cfg.windowMs }, record)
  else
    match record with
    | some r =>
      -- Check if currently blocked
      if (match r.blockedUntil with | some b => decide (now < b) | none => false) then
        ({ allowed := false, remaining := 0, resetTime := r.resetTime,
           blockedUntil := r.blockedUntil }, some r)
      -- Reset window if expired
      else if now > r.resetTime then
        ({ allowed := true, remaining := (cfg.maxRequests : Int) - 1,
           resetTime := now + cfg.windowMs },
         some { count := 1, resetTime := now + cfg.windowMs })
      else
        -- Increment counter
        let c := r.count + 1
        if c > cfg.maxRequests then
          ({ allowed := false, remaining := 0, resetTime := r.resetTime,
             blockedUntil := some (now + cfg.blockDurationMs) },
           some { r with count := c, blockedUntil := some (now + cfg.blockDurationMs) })
        else
          ({ allowed := true, remaining := (cfg.maxRequests : Int) - (c : Int),
             resetTime := r.resetTime },
           some { r with count := c })
    | none =>
      ({ allowed := true, remaining := (cfg.maxRequests : Int) - 1,
         resetTime := now + cfg.windowMs },
       some { count := 1, resetTime := now + cfg.windowMs })

/-- Iterated rate-limit checks (the store entry threaded through a sequence of
calls at the given `Date.now()` values). -/
def runChecks (enabled : Bool) (cfg : RateLimitConfig) (ts : List Nat)
    (s : Option RateRecord) : Option RateRecord :=
  ts.foldl (fun st t => (checkRateLimit enabled cfg t st).2) s

/-! ### `SecurityManager.sanitizeInput` (src/p4/security.ts lines 120-174) -/

inductive InputType where
  | filespec
  | pattern
  | path
deriving DecidableEq

structure SanitizeResult where
  sanitized : String
  valid : Bool
  warnings : List String
deriving DecidableEq

/-- The character class removed from filespecs: `/[<>|;&$]/g`. -/
def isFilespecDangerChar (c : Char) : Bool :=
  c = '<' || c = '>' || c = '|' || c = ';' || c = '&' || c = '$'

/-- POSIX `path.isAbsolute` (the server is modelled on a POSIX host). -/
def pathIsAbsolute (s : String) : Bool :=
  strStartsWith s "/"

/-- First dangerous-pattern test `/\\0/`: a literal backslash followed by `0`. -/
def hasNullEscape (s : String) : Bool :=
  strContains s "\\0"

/-- Second dangerous-pattern test `/\(\?\</`: a lookbehind opener `(?<`. -/
def hasLookbehind (s : String) : Bool :=
  strContains s "(?<"

/-- Third dangerous-pattern test `/(x*)*y/`.  Since `(x*)*` matches the empty
string, this regex matches a string exactly when the string contains the
character `y`; the test reduces to that containment. -/
def hasNestedQuantifierMatch (s : String) : Bool :=
  s.toList.contains 'y'

/-- The `switch (type)` body of `SecurityManager.sanitizeInput`: the sanitized
text and the accumulated warnings, in push order, starting from the trimmed
input. -/
def sanitizeCore (input : String) (type : InputType) : String × List String :=
  let s0 := jsTrim input
  match type with
  | .filespec =>
    let w1 := if strContains s0 ".." && !(strStartsWith s0 "//") then
        ["Relative path traversal detected in filespec"] else []
    let w2 := if strContains s0 "*" && strContains s0 ".." then
        ["Wildcard with path traversal detected"] else []
    (String.mk (s0.toList.filter (fun c => !isFilespecDangerChar c)), w1 ++ w2)
  | .pattern =>
    let s1 := if strLen s0 > 1000 then strTakeChars s0 1000 else s0
    let w1 := if strLen s0 > 1000 then ["Pattern too long, truncated to 1000 characters"] else []
    let w2 := if hasNullEscape s1 then ["Potentially dangerous regex pattern detected"] else []
    let w3 := if hasLookbehind s1 then ["Potentially dangerous regex pattern detected"] else []
    let w4 := if hasNestedQuantifierMatch s1 then
        ["Potentially dangerous regex pattern detected"] else []
    (s1, w1 ++ w2 ++ w3 ++ w4)
  | .path =>
    let w1 := if pathIsAbsolute s0 && !(strStartsWith s0 "//") then
        ["Absolute path detected, ensure it\x27s intended"] else []
    let s1 := if s0.toList.contains '\x00' then
        String.mk (s0.toList.filter (fun c => c ≠ '\x00')) else s0
    let w2 := if s0.toList.contains '\x00' then ["Null bytes detected in path"] else []
    (s1, w1 ++ w2)

/-- The final validity expression of `sanitizeInput`:
`warnings.length === 0 || warnings.every(w => !w.includes('dangerous'))`. -/
def sanitizeValid (warnings : List String) : Bool :=
  warnings.isEmpty || warnings.all (fun w => !strContains w "dangerous")

/-- `SecurityManager.sanitizeInput`.  `enabled` is
`complianceConfig.enableInputSanitization`. -/
def sanitizeInput (enabled : Bool) (input : String) (type : InputType) : SanitizeResult :=
  if !enabled then
    { sanitized := input, valid := true, warnings := [] }
  else
    { sanitized := (sanitizeCore input type).1,
      valid := sanitizeValid (sanitizeCore input type).2,
      warnings := (sanitizeCore input type).2 }

/-! ### Tag-value parsing

Two distinct implementations exist in the repository: the standalone
`parseZtagOutput` of src/p4/parse.ts (regex `^\.\.\. (\w+)\s*(.*)$`, scalar
coercion via `parseValue`, always returns an array) and the private
`P4Runner.parseZtagOutput` of src/p4/runner.ts (regex `^\.\.\. (\w+)\s+(.*)$`,
no coercion, a single record returned unwrapped). -/

/-- JS `\w` character class: `[A-Za-z0-9_]`. -/
def isWordChar (c : Char) : Bool :=
  c.isAlpha || c.isDigit || c = '_'

/-- Match one trimmed line against `^\.\.\. (\w+)\sQ(.*)$` where `\sQ` is `\s+`
when `requireSpace` is true (runner.ts) and `\s*` otherwise (parse.ts).
Greedy matching of the disjoint classes gives: the key is the maximal run of
word characters after the literal `"... "`, the following whitespace run is
skipped, and the value is the remainder of the line. -/
def matchZtagLine (requireSpace : Bool) (line : String) : Option (String × String) :=
  if strStartsWith line "... " then
    let rest := strDropChars line 4
    let key := String.mk (rest.toList.takeWhile isWordChar)
    if strIsEmpty key then none
    else
      let after := strDropChars rest (strLen key)
      let ws := String.mk (after.toList.takeWhile Char.isWhitespace)
      if requireSpace && strIsEmpty ws then none
      else some (key, strDropChars after (strLen ws))
  else none

/-- Scalar values produced by `parseValue` in src/p4/parse.ts. -/
inductive ZVal where
  | str (s : String)
  | num (q : ℚ)
  | boolean (b : Bool)
deriving DecidableEq

/-- The numeric shape accepted by `parseValue`: `/^\d+(\.\d+)?$/` (for such
strings `parseFloat` is finite and not NaN, so the regex test decides coercion). -/
def numericShape (s : String) : Bool :=
  match strSplitOnChar '.' s with
  | [a] => !strIsEmpty a && a.toList.all Char.isDigit
  | [a, b] => !strIsEmpty a && a.toList.all Char.isDigit &&
      !strIsEmpty b && b.toList.all Char.isDigit
  | _ => false

/-- Exact value of `parseFloat` on a string of shape `\d+(\.\d+)?`. -/
def ratOfNumeric (s : String) : ℚ :=
  match strSplitOnChar '.' s with
  | [a] => (digitsToNat a : ℚ)
  | [a, b] => (digitsToNat a : ℚ) + (digitsToNat b : ℚ) / (10 : ℚ) ^ strLen b
  | _ => 0

/-- `parseValue` from src/p4/parse.ts: numeric coercion, then boolean coercion,
else the string itself (empty string short-circuits to the empty string). -/
def parseValue (value : String) : ZVal :=
  if strIsEmpty value then .str ""
  else if numericShape value then .num (ratOfNumeric value)
  else
    let lower := strToLower value
    if lower = "true" || lower = "yes" || lower = "on" then .boolean true
    else if lower = "false" || lower = "no" || lower = "off" then .boolean false
    else .str value

/-- The record-accumulation loop shared by both ztag parsers, abstracted over
the per-line matcher and the stored value. -/
def ztagRecords {α : Type} (matchLine : String → Option (String × String))
    (coerce : String → α) (output : String) : List (List (String × α)) :=
  let step := fun (acc : List (List (String × α)) × List (String × α)) (line : String) =>
    let (results, currentRecord) := acc
    let trimmedLine := jsTrim line
    if strIsEmpty trimmedLine then
      if currentRecord.length > 0 then (results ++ [currentRecord], []) else (results, currentRecord)
    else
      match matchLine trimmedLine with
      | some (key, value) => (results, objInsert currentRecord key (coerce value))
      | none => (results, currentRecord)
  let (results, currentRecord) := (strSplitOnChar '\n' output).foldl step ([], [])
  if currentRecord.length > 0 then results ++ [currentRecord] else results

/-- `parseZtagOutput` from src/p4/parse.ts: `\s*` separator, `parseValue`
coercion of the trimmed value, result always a list of records. -/
def parseZtagOutput (output : String) : List (List (String × ZVal)) :=
  ztagRecords (matchZtagLine false) (fun v => parseValue (jsTrim v)) output

/-- Result shape of `P4Runner.parseZtagOutput`: `results.length === 1 ?
results[0] : results`. -/
inductive ZtagResult where
  | one (r : List (String × String))
  | many (rs : List (List (String × String)))
deriving DecidableEq

/-- The record list built by `P4Runner.parseZtagOutput` (src/p4/runner.ts
lines 223-247): `\s+` separator, values kept as raw strings. -/
def runnerZtagRecords (output : String) : List (List (String × String)) :=
  ztagRecords (matchZtagLine true) id output

/-- `P4Runner.parseZtagOutput` including the final unwrap of a single record. -/
def runnerParseZtagOutput (output : String) : ZtagResult :=
  match runnerZtagRecords output with
  | [r] => .one r
  | rs => .many rs

/-! ### `P4Config.findConfig` / `P4Config.searchUpward` (src/p4/config.ts)

Paths are modelled as the list of directory components below the POSIX
filesystem root, so `/a/b/c` is `["a", "b", "c"]` and the root is `[]`;
`path.dirname` is `List.dropLast` and `path.join dir name` appends `name`.
The filesystem is a pair of oracles: `ex` says whether `fs.promises.access`
succeeds (an access that throws - whether because the file is missing or
because of any other filesystem error - is `false`, exactly as the code's
catch-and-continue treats it), and `read` is `fs.promises.readFile`,
with `Except.error` for a read that throws. -/

structure FSModel where
  ex : List String → Bool
  read : List String → Except Unit String

structure P4ConfigResult where
  found : Bool
  configPath : Option (List String)
  projectRoot : Option (List String)
  config : List (String × String)
  environment : List (String × String)
deriving DecidableEq

/-- `P4Config.searchUpward`: walk from `comps` up to the root checking for
`configName`, then check the root itself; returns the project root on success
(the config path is that root with `configName` appended). -/
def searchUpward (ex : List String → Bool) (configName : String)
    (comps : List String) : Option (List String) :=
  if h : comps = [] then
    if ex [configName] then some [] else none
  else
    if ex (comps ++ [configName]) then some comps
    else searchUpward ex configName comps.dropLast
termination_by comps.length
decreasing_by
  simp only [List.length_dropLast]
  have hpos : 0 < comps.length := List.length_pos.mpr h
  omega

/-- Strip a symmetric pair of surrounding quotes: the replace of
`/^(['"])(.*)\1$/` with `$2` in `parseConfigFile`. -/
def stripQuotes (v : String) : String :=
  match v.toList with
  | c :: rest =>
    if (c = '\x27' || c = '"') && !rest.isEmpty && rest.getLast? = some c then
      String.mk rest.dropLast
    else v
  | [] => v

/-- `P4Config.parseConfigFile` applied to already-read file content: skip blank
lines and `#`/`;` comments, split on the first `=` (which must not be at
position 0), trim both sides, strip surrounding quotes from the value. -/
def parseConfigFile (content : String) : List (String × String) :=
  (strSplitOnChar '\n' content).foldl
    (fun config line =>
      let trimmed := jsTrim line
      if strIsEmpty trimmed || strStartsWith trimmed "#" || strStartsWith trimmed ";" then config
      else
        match strSplitOnChar '=' trimmed with
        | [] => config
        | [_] => config
        | key :: rest =>
          if strIsEmpty key then config
          else
            let value := jsTrim (strJoinChar '=' rest)
            objInsert config (jsTrim key) (stripQuotes value))
    []

/-- The ordered key mapping of `P4Config.buildEnvironment`. -/
def configEnvKeys : List String :=
  ["P4PORT", "P4USER", "P4CLIENT", "P4CHARSET", "P4PASSWD",
   "P4COMMANDCHARSET", "P4LANGUAGE", "P4DIFF", "P4MERGE", "P4EDITOR"]

/-- `P4Config.buildEnvironment`: `P4CONFIG` plus every mapped key whose config
value is truthy (non-empty). -/
def buildEnvironment (config : List (String × String)) (configName : String) :
    List (String × String) :=
  configEnvKeys.foldl
    (fun env key =>
      match config.lookup key with
      | some v => if strIsEmpty v then env else objInsert env key v
      | none => env)
    [("P4CONFIG", configName)]

/-- The degraded result `findConfig` produces whenever the search fails or any
filesystem error is caught. -/
def configNotFound (configName : String) : P4ConfigResult :=
  { found := false, configPath := none, projectRoot := none, config := [],
    environment := [("P4CONFIG", configName)] }

/-- `P4Config.findConfig`: search upward, read and parse the file, build the
environment; any failure (nothing found, or the read throwing) yields the
degraded not-found result - no exception ever escapes. -/
def findConfig (fs : FSModel) (startPath : List String) (configName : String) :
    P4ConfigResult :=
  match searchUpward fs.ex configName startPath with
  | none => configNotFound configName
  | some projectRoot =>
    match fs.read (projectRoot ++ [configName]) with
    | .error _ => configNotFound configName
    | .ok content =>
      let config := parseConfigFile content
      { found := true, configPath := some (projectRoot ++ [configName]),
        projectRoot := some projectRoot, config := config,
        environment := buildEnvironment config configName }

/-! ### `P4Runner` (src/p4/runner.ts)

The subprocess itself is outside the embedding: `spawnP4Process` is abstracted
into a `SpawnOutcome` - either the `close` event with captured stdout/stderr
and exit code (`null` coalesced to `-1` as in the code), or a rejection
carrying `String(error)`.  A fired timeout timer rejects with an `Error` whose
`String` form is `"Error: Command timeout after <t>ms"`, so it reaches `run`'s
catch as `SpawnOutcome.errored` of that text.  The effective process
environment (the merge of `process.env`, the per-call `env` override and the
`P4CONFIG` default) enters as one
oracle `processEnv`. -/

/-- The error record built by `P4Runner.mapError` (and the memory pre-check);
`details` holds the combined message and the exit code when present. -/
structure RunError where
  code : String
  message : String
  detailsStderr : Option String := none
  detailsExitCode : Option Int := none
  stderr : Option String := none
  exitCode : Option Int := none
deriving DecidableEq

/-- `stderr || stdout || 'Unknown error'` - the combined failure text
`mapError` matches signatures against. -/
def combinedMessage (stderr stdout : String) : String :=
  if !strIsEmpty stderr then stderr else if !strIsEmpty stdout then stdout else "Unknown error"

/-- The ordered set of known failure signatures from `P4Runner.mapError`
(message substrings only; the executable-not-found signature additionally
fires on exit codes 127 and -1). -/
def matchesKnownSignature (msg : String) : Bool :=
  strContains msg "Perforce client error" ||
  strContains msg "Perforce password" || strContains msg "Access denied" ||
  (strContains msg "Client \x27" && strContains msg "\x27 unknown") ||
  strContains msg "Connect to server failed" || strContains msg "TCP connect" ||
  strContains msg "timeout" || strContains msg "Command timeout" ||
  strContains msg "not under client"

/-- `P4Runner.mapError` (src/p4/runner.ts lines 298-372): the ordered mapping
of a non-zero exit (or spawn failure) to a stable error code. -/
def mapError (exitCode : Int) (stderr stdout : String) : RunError :=
  let errorMessage := combinedMessage stderr stdout
  if strContains errorMessage "Perforce client error" || exitCode = 127 || exitCode = -1 then
    { code := "P4_NOT_FOUND", message := "Perforce executable not found or not accessible",
      detailsStderr := some errorMessage, detailsExitCode := some exitCode,
      stderr := some stderr, exitCode := some exitCode }
  else if strContains errorMessage "Perforce password" ||
      strContains errorMessage "Access denied" then
    { code := "P4_AUTH_FAILED", message := "Perforce authentication failed",
      detailsStderr := some errorMessage, detailsExitCode := some exitCode,
      stderr := some stderr, exitCode := some exitCode }
  else if strContains errorMessage "Client \x27" && strContains errorMessage "\x27 unknown" then
    { code := "P4_CLIENT_UNKNOWN", message := "Perforce client/workspace unknown",
      detailsStderr := some errorMessage, detailsExitCode := some exitCode,
      stderr := some stderr, exitCode := some exitCode }
  else if strContains errorMessage "Connect to server failed" ||
      strContains errorMessage "TCP connect" then
    { code := "P4_CONNECTION_FAILED", message := "Failed to connect to Perforce server",
      detailsStderr := some errorMessage, detailsExitCode := some exitCode,
      stderr := some stderr, exitCode := some exitCode }
  else if strContains errorMessage "timeout" || strContains errorMessage "Command timeout" then
    { code := "P4_TIMEOUT", message := "Perforce command timed out",
      detailsStderr := some errorMessage, detailsExitCode := some exitCode,
      stderr := some stderr, exitCode := some exitCode }
  else if strContains errorMessage "not under client" then
    { code := "P4_NOT_UNDER_CLIENT", message := "File(s) not under client root",
      detailsStderr := some errorMessage, detailsExitCode := some exitCode,
      stderr := some stderr, exitCode := some exitCode }
  else
    { code := "P4_COMMAND_FAILED",
      message := if strIsEmpty errorMessage then
          "Command failed with exit code " ++ toString exitCode
        else errorMessage,
      detailsStderr := some errorMessage, detailsExitCode := some exitCode,
      stderr := some stderr, exitCode := some exitCode }

/-- Parsed results a successful `run` can carry (`result.result`). -/
inductive PVal where
  | raw (s : String)
  | record (fields : List (String × String))
  | list (items : List (List (String × String)))
  | lines (ls : List String)
  | marshaled (raw : String)
deriving DecidableEq

/-- Index of the first occurrence of `": "` in a line (JS `indexOf(': ')`),
as a character position. -/
def indexOfColonSpace (s : String) : Option Nat :=
  (List.range (strLen s)).find? (fun i => strStartsWith (strDropChars s i) ": ")

/-- `P4Runner.parseTextOutput`: keep non-blank lines; if some line contains
`": "`, build a record from every line whose first `": "` is at a positive
index (key before, value after, both trimmed), falling back to the plain line
list when the record stays empty. -/
def parseTextOutput (output : String) : PVal :=
  let lines := (strSplitOnChar '\n' output).filter (fun l => !strIsEmpty (jsTrim l))
  if lines.any (fun l => strContains l ": ") then
    let result := lines.foldl
      (fun r line =>
        match indexOfColonSpace line with
        | some i =>
          if i > 0 then
            objInsert r (jsTrim (strTakeChars line i)) (jsTrim (strDropChars line (i + 2)))
          else r
        | none => r)
      []
    if result.length > 0 then .record result else .lines lines
  else .lines lines

/-- `P4Runner.supportsMarshalled` - the source simply returns `true`. -/
def supportsMarshalled : Bool := true

/-- `P4Runner.parseMarshaled` - the placeholder returns a record carrying the
raw output (plus a fixed note), modelled by the `marshaled` constructor. -/
def parseMarshaled (output : String) : PVal := .marshaled output

/-- `P4Runner.parseOutput` dispatch on the requested format (the code's
try/catch is vacuous here: all three parsers are total).  The empty-output
guard lives in `run`, which only calls this with non-blank stdout. -/
def runnerParseOutput (output : String) (useZtag useMarshalled : Bool) : PVal :=
  if useMarshalled && supportsMarshalled then parseMarshaled output
  else if useZtag then
    match runnerParseZtagOutput output with
    | .one r => .record r
    | .many rs => .list rs
  else parseTextOutput output

/-- The fixed allow-list of connection keys echoed back in the envelope. -/
def configKeys : List String :=
  ["P4PORT", "P4USER", "P4CLIENT", "P4CHARSET", "P4PASSWD"]

/-- Loop body of `P4Runner.extractConfigFromEnv`: `if (env[key]) config[key] =
key === 'P4PASSWD' ? '***masked***' : env[key]`. -/
def extractStep (env : String → Option String) (config : List (String × String))
    (key : String) : List (String × String) :=
  match env key with
  | some v => if strIsEmpty v then config
      else objInsert config key (if key = "P4PASSWD" then "***masked***" else v)
  | none => config

/-- `P4Runner.extractConfigFromEnv` (src/p4/runner.ts lines 284-296): keep only
the allow-listed keys whose value is truthy, masking the password. -/
def extractConfigFromEnv (env : String → Option String) : List (String × String) :=
  configKeys.foldl (extractStep env) []

/-- `P4RunOptions` (the `env` override is already merged into the `processEnv`
oracle handed to `run`; `timeout` only parameterises the abstracted spawn). -/
structure P4RunOptions where
  parseOutput : Bool := true
  useZtag : Bool := false
  useMarshalled : Bool := false
  maxMemoryMB : Nat := 512
deriving DecidableEq

/-- Resolution of one `spawnP4Process` call: either the `close` event (with the
`null` exit code already coalesced to `-1`) or a rejection (the `error` event,
or the timeout timer firing) stringified by the catch into `String(error)`. -/
inductive SpawnOutcome where
  | exited (stdout stderr : String) (exitCode : Int)
  | errored (message : String)
deriving DecidableEq

/-- The Command Result Envelope (`P4RunResult`), with `Option` for fields the
code leaves unset (`result = none` also models the explicit `null`). -/
structure P4RunResult where
  ok : Bool
  configUsed : List (String × String)
  result : Option PVal := none
  warnings : Option (List String) := none
  error : Option RunError := none
deriving DecidableEq

/-- `P4Runner.run` (src/p4/runner.ts lines 47-142) with its effects made
explicit: `memoryMB` is the observed RSS in MB for the pre-check, `processEnv`
the merged effective environment, and `outcome` the resolution of the spawned
process. -/
def run (processEnv : String → Option String) (opts : P4RunOptions) (memoryMB : Nat)
    (outcome : SpawnOutcome) : P4RunResult :=
  if memoryMB > opts.maxMemoryMB then
    { ok := false, configUsed := [],
      error := some { code := "P4_MEMORY_LIMIT",
                      message := "Memory limit exceeded: " ++ toString memoryMB ++ "MB > " ++
                        toString opts.maxMemoryMB ++ "MB" } }
  else
    let configUsed := extractConfigFromEnv processEnv
    match outcome with
    | .exited stdout stderr exitCode =>
      if exitCode = 0 then
        { ok := true, configUsed := configUsed,
          result :=
            if opts.parseOutput && !strIsEmpty (jsTrim stdout) then
              some (runnerParseOutput stdout opts.useZtag opts.useMarshalled)
            else if !strIsEmpty (jsTrim stdout) then some (.raw (jsTrim stdout))
            else none,
          warnings :=
            if !strIsEmpty (jsTrim stderr) then
              some ((strSplitOnChar '\n' stderr).filter (fun line => !strIsEmpty (jsTrim line)))
            else none }
      else
        { ok := false, configUsed := configUsed,
          error := some (mapError exitCode stderr stdout) }
    | .errored message =>
      { ok := false, configUsed := configUsed,
        error := some (mapError (-1) message "") }

/-! ### Claim theorems -/

/-- Claim C1 (code evaluation at the failing input): when the timeout timer
fires, `spawnP4Process` rejects with an error whose `String` form is
`"Error: Command timeout after 60000ms"`; `run`'s catch forwards it to
`mapError` with exit code `-1`, and the `exitCode === -1` disjunct of the
executable-not-found branch fires first, so the envelope carries error code
`P4_NOT_FOUND` - not the command-timeout code `P4_TIMEOUT` the later
`'Command timeout'` signature branch was written to produce. -/
theorem run_timeout_rejection_mapped_to_not_found :
    strContains "Error: Command timeout after 60000ms" "Command timeout" = true ∧
    (run (fun _ => none) {} 0 (.errored "Error: Command timeout after 60000ms")).ok = false ∧
    (run (fun _ => none) {} 0 (.errored "Error: Command timeout after 60000ms")).error =
      some { code := "P4_NOT_FOUND",
             message := "Perforce executable not found or not accessible",
             detailsStderr := some "Error: Command timeout after 60000ms",
             detailsExitCode := some (-1),
             stderr := some "Error: Command timeout after 60000ms",
             exitCode := some (-1) } := by
  decide

/-- Claim C9 (code evaluation at the failing input): the pattern `"day"`
contains neither a backslash-zero escape, nor a lookbehind opener, nor any
nested-quantifier text, yet `sanitizeInput` flags it as a potentially
dangerous pattern and invalidates it - the third dangerous-pattern regex
`/(x*)*y/` matches every string containing the letter `y`. -/
theorem sanitize_pattern_flags_plain_y :
    sanitizeInput true "day" .pattern =
      { sanitized := "day", valid := false,
        warnings := ["Potentially dangerous regex pattern detected"] } ∧
    hasNullEscape "day" = false ∧
    hasLookbehind "day" = false ∧
    strContains "day" "(x*)*y" = false := by
  decide

/-- Claim C2, counterexample: with max 1 request, window 1000 ms and block
duration 1 ms, the second check (at time 1) blocks with block-until 2, and the
check at time 2 - which is at block-until, so the claim demands allowed=true
with the count reset to 1 - is rejected again: the stored window has not
expired, so the code re-increments and re-blocks instead of resetting. -/
theorem rate_limit_reblock_counterexample :
    (checkRateLimit true ⟨1, 1000, 1⟩ 1
      (checkRateLimit true ⟨1, 1000, 1⟩ 0 none).2).2 =
      some { count := 2, resetTime := 1000, blockedUntil := some 2 } ∧
    (checkRateLimit true ⟨1, 1000, 1⟩ 2
      (checkRateLimit true ⟨1, 1000, 1⟩ 1
        (checkRateLimit true ⟨1, 1000, 1⟩ 0 none).2).2).1.allowed = false := by
  decide

/-- Claim C4, counterexample: the standalone tag-value parser of parse.ts
returns a one-element list - not an unwrapped record - for an input producing
exactly one non-empty record, and the runner's tag-value parser (the one that
does unwrap) applies no numeric coercion: on the example input `key2` stays
the string `"42"`. No single parser has both claimed behaviours. -/
theorem ztag_claim_counterexample :
    parseZtagOutput "... key1 value1\n" = [[("key1", ZVal.str "value1")]] ∧
    runnerParseZtagOutput "... key1 value1\n... key2 42\n\n... key1 othervalue\n" =
      .many [[("key1", "value1"), ("key2", "42")], [("key1", "othervalue")]] := by
  decide

/-- Claim C4 (amended): on the example input the parse.ts tag-value parser
returns exactly the two records with numeric coercion applied to `key2` only,
as a two-element list; and it is the runner's internal tag-value parser that
returns a single resulting non-empty record unwrapped (its values staying
uncoerced strings). -/
theorem ztag_example_records_and_runner_unwrap (output : String)
    (r : List (String × String)) (h : runnerZtagRecords output = [r]) :
    parseZtagOutput "... key1 value1\n... key2 42\n\n... key1 othervalue\n" =
      [[("key1", ZVal.str "value1"), ("key2", ZVal.num 42)],
       [("key1", ZVal.str "othervalue")]] ∧
    runnerParseZtagOutput output = .one r := by
  refine ⟨by decide, ?_⟩
  rw [runnerParseZtagOutput, h]

/-- Witness for the amended C4 theorem at a concrete single-record input. -/
theorem ztag_example_records_and_runner_unwrap_witness :
    runnerZtagRecords "... key1 value1\n" = [[("key1", "value1")]] ∧
    runnerParseZtagOutput "... key1 value1\n" = .one [("key1", "value1")] :=
  ⟨by decide,
   (ztag_example_records_and_runner_unwrap "... key1 value1\n" [("key1", "value1")]
      (by decide)).2⟩

/-- The validity expression is exactly "no warning mentions dangerous". -/
lemma sanitizeValid_eq_true_iff (l : List String) :
    sanitizeValid l = true ↔ ∀ w ∈ l, strContains w "dangerous" = false := by
  cases l with
  | nil => simp [sanitizeValid]
  | cons h t => simp [sanitizeValid, List.all_eq_true]

/-- Claim C3: `sanitizeInput` returns valid=true exactly when no produced
warning text contains the substring "dangerous"; a filespec containing `..`
that (after trimming) does not start with `//` yields the traversal warning
with validity still true; a pattern (short enough to escape truncation)
containing a lookbehind opener yields the dangerous-pattern warning and
validity false. -/
theorem sanitize_valid_iff_no_dangerous :
    (∀ (enabled : Bool) (input : String) (type : InputType),
      (sanitizeInput enabled input type).valid = true ↔
        ∀ w ∈ (sanitizeInput enabled input type).warnings, strContains w "dangerous" = false) ∧
    (∀ input : String,
      strContains (jsTrim input) ".." = true → strStartsWith (jsTrim input) "//" = false →
      (sanitizeInput true input .filespec).valid = true ∧
      "Relative path traversal detected in filespec" ∈
        (sanitizeInput true input .filespec).warnings) ∧
    (∀ input : String,
      strLen (jsTrim input) ≤ 1000 → hasLookbehind (jsTrim input) = true →
      (sanitizeInput true input .pattern).valid = false ∧
      "Potentially dangerous regex pattern detected" ∈
        (sanitizeInput true input .pattern).warnings) := by
  refine ⟨?_, ?_, ?_⟩
  · intro enabled input type
    cases enabled
    · simp [sanitizeInput]
    · simp [sanitizeInput, sanitizeValid_eq_true_iff]
  · intro input h1 h2
    simp only [sanitizeInput, Bool.not_true, Bool.false_eq_true, if_false, sanitizeCore]
    by_cases hw : strContains (jsTrim input) "*"
    · simp [h1, h2, hw]
      decide
    · simp [h1, h2, hw]
      decide
  · intro input hlen hlb
    have hni : ¬ strLen (jsTrim input) > 1000 := by omega
    simp only [sanitizeInput, Bool.not_true, Bool.false_eq_true, if_false, sanitizeCore]
    by_cases hne : hasNullEscape (jsTrim input) <;>
      by_cases hnq : hasNestedQuantifierMatch (jsTrim input) <;>
        · simp [hni, hlb, hne, hnq]
          decide

/-- Witness for C3 at concrete filespec and pattern inputs. -/
theorem sanitize_valid_iff_no_dangerous_witness :
    (sanitizeInput true "../foo" .filespec).valid = true ∧
    (sanitizeInput true "(?<=a)b" .pattern).valid = false :=
  ⟨(sanitize_valid_iff_no_dangerous.2.1 "../foo" (by decide) (by decide)).1,
   (sanitize_valid_iff_no_dangerous.2.2 "(?<=a)b" (by decide) (by decide)).1⟩

/-- The combined failure text is never empty (it falls back to
"Unknown error"). -/
lemma combinedMessage_not_empty (a b : String) : strIsEmpty (combinedMessage a b) = false := by
  unfold combinedMessage
  by_cases ha : strIsEmpty a
  · by_cases hb : strIsEmpty b
    · simp [ha, hb]
      decide
    · simp [ha, hb]
  · simp [ha]

/-- Claim C5: a non-zero exit whose combined stderr/stdout contains
"Access denied" and matches no earlier signature (no "Perforce client error"
text, exit code neither 127 nor -1) maps to `P4_AUTH_FAILED`; exit code 127
with no recognizable message maps to `P4_NOT_FOUND`; and a failure matching no
known signature maps to `P4_COMMAND_FAILED` carrying the raw combined text and
the exit code. -/
theorem mapError_signature_mapping (ec : Int) (stderr stdout : String) :
    (strContains (combinedMessage stderr stdout) "Access denied" = true →
      strContains (combinedMessage stderr stdout) "Perforce client error" = false →
      ec ≠ 127 → ec ≠ -1 →
      (mapError ec stderr stdout).code = "P4_AUTH_FAILED") ∧
    (matchesKnownSignature (combinedMessage stderr stdout) = false →
      (mapError 127 stderr stdout).code = "P4_NOT_FOUND") ∧
    (matchesKnownSignature (combinedMessage stderr stdout) = false →
      ec ≠ 127 → ec ≠ -1 →
      mapError ec stderr stdout =
        { code := "P4_COMMAND_FAILED", message := combinedMessage stderr stdout,
          detailsStderr := some (combinedMessage stderr stdout), detailsExitCode := some ec,
          stderr := some stderr, exitCode := some ec }) := by
  refine ⟨?_, ?_, ?_⟩
  · intro h1 h2 h3 h4
    simp [mapError, h1, h2, h3, h4]
  · intro _
    simp [mapError]
  · intro hsig h127 hm1
    simp only [matchesKnownSignature, Bool.or_eq_false_iff] at hsig
    obtain ⟨⟨⟨⟨⟨⟨⟨⟨c1, c2⟩, c3⟩, c4⟩, c5⟩, c6⟩, c7⟩, c8⟩, c9⟩ := hsig
    simp [mapError, c1, c2, c3, c4, c5, c6, c7, c8, c9, h127, hm1,
      combinedMessage_not_empty]

/-- Witness for C5 at concrete failure outcomes. -/
theorem mapError_signature_mapping_witness :
    (mapError 1 "Access denied" "").code = "P4_AUTH_FAILED" ∧
    (mapError 127 "" "").code = "P4_NOT_FOUND" ∧
    (mapError 3 "weird stuff" "").code = "P4_COMMAND_FAILED" :=
  ⟨(mapError_signature_mapping 1 "Access denied" "").1 (by decide) (by decide)
      (by decide) (by decide),
   (mapError_signature_mapping 127 "" "").2.1 (by decide),
   by rw [(mapError_signature_mapping 3 "weird stuff" "").2.2 (by decide)
      (by decide) (by decide)]⟩

/-- Claim C7: envelope invariants of `run` - success and error are mutually
exclusive, warnings accompany success only, and a zero exit with non-empty
stderr yields ok=true together with the stderr lines (blank lines dropped) as
warnings. -/
theorem run_envelope_invariants (processEnv : String → Option String)
    (opts : P4RunOptions) (memoryMB : Nat) (outcome : SpawnOutcome) :
    ((run processEnv opts memoryMB outcome).ok = true ↔
      (run processEnv opts memoryMB outcome).error = none) ∧
    ((run processEnv opts memoryMB outcome).warnings.isSome = true →
      (run processEnv opts memoryMB outcome).ok = true) ∧
    (∀ stdout stderr, outcome = .exited stdout stderr 0 →
      memoryMB ≤ opts.maxMemoryMB → strIsEmpty (jsTrim stderr) = false →
      (run processEnv opts memoryMB outcome).ok = true ∧
      (run processEnv opts memoryMB outcome).warnings =
        some ((strSplitOnChar '\n' stderr).filter (fun line => !strIsEmpty (jsTrim line)))) := by
  refine ⟨?_, ?_, ?_⟩
  · by_cases hm : memoryMB > opts.maxMemoryMB
    · simp [run, hm]
    · cases outcome with
      | exited stdout stderr exitCode =>
        by_cases hc : exitCode = 0
        · simp [run, hm, hc]
        · simp [run, hm, hc]
      | errored message => simp [run, hm]
  · by_cases hm : memoryMB > opts.maxMemoryMB
    · simp [run, hm]
    · cases outcome with
      | exited stdout stderr exitCode =>
        by_cases hc : exitCode = 0
        · simp [run, hm, hc]
        · simp [run, hm, hc]
      | errored message => simp [run, hm]
  · intro stdout stderr houtcome hm hw
    subst houtcome
    have hm' : ¬ memoryMB > opts.maxMemoryMB := by omega
    simp [run, hm', hw]

/-- Witness for C7 at a concrete successful call with stderr noise. -/
theorem run_envelope_invariants_witness :
    (run (fun _ => none) {} 0 (.exited "" "warn1\n\nwarn2\n" 0)).ok = true ∧
    (run (fun _ => none) {} 0 (.exited "" "warn1\n\nwarn2\n" 0)).warnings =
      some ["warn1", "warn2"] := by
  have h := (run_envelope_invariants (fun _ => none) {} 0
    (.exited "" "warn1\n\nwarn2\n" 0)).2.2 "" "warn1\n\nwarn2\n" rfl (by decide) (by decide)
  exact ⟨h.1, h.2.trans (by decide)⟩

/-- Claim C10: a successful invocation (exit code 0) whose stdout is empty or
whitespace-only yields `result = null` (modelled as `none`), whatever the
parse-output toggle is. -/
theorem run_empty_stdout_null_result (processEnv : String → Option String)
    (opts : P4RunOptions) (memoryMB : Nat) (stdout stderr : String)
    (hmem : memoryMB ≤ opts.maxMemoryMB) (hstdout : strIsEmpty (jsTrim stdout) = true) :
    (run processEnv opts memoryMB (.exited stdout stderr 0)).ok = true ∧
    (run processEnv opts memoryMB (.exited stdout stderr 0)).result = none := by
  have hm' : ¬ memoryMB > opts.maxMemoryMB := by omega
  simp [run, hm', hstdout]

/-- Witness for C10 with whitespace-only stdout, under both parse toggles. -/
theorem run_empty_stdout_null_result_witness :
    ((run (fun _ => none) { parseOutput := true } 0 (.exited "  \n" "" 0)).result = none) ∧
    ((run (fun _ => none) { parseOutput := false } 0 (.exited "  \n" "" 0)).result = none) :=
  ⟨(run_empty_stdout_null_result (fun _ => none) { parseOutput := true } 0 "  \n" ""
      (by decide) (by decide)).2,
   (run_empty_stdout_null_result (fun _ => none) { parseOutput := false } 0 "  \n" ""
      (by decide) (by decide)).2⟩

/-- Membership after an object write comes from the old object or is the
written pair. -/
lemma mem_objInsert {α : Type} (r : List (String × α)) (k' : String) (v' : α)
    (k : String) (v : α) (h : (k, v) ∈ objInsert r k' v') :
    (k, v) ∈ r ∨ (k = k' ∧ v = v') := by
  induction r with
  | nil =>
    simp [objInsert] at h
    exact Or.inr h
  | cons p t ih =>
    obtain ⟨pk, pv⟩ := p
    by_cases hk : pk = k'
    · simp [objInsert, hk] at h
      rcases h with ⟨rfl, rfl⟩ | h
      · exact Or.inr ⟨rfl, rfl⟩
      · exact Or.inl (List.mem_cons_of_mem _ h)
    · simp [objInsert, hk] at h
      rcases h with ⟨rfl, rfl⟩ | h
      · exact Or.inl (List.mem_cons_self _ _)
      · rcases ih h with h' | h'
        · exact Or.inl (List.mem_cons_of_mem _ h')
        · exact Or.inr h'

/-- Membership after one `extractStep` comes from the accumulator or names that
step's key, masked if it is the password key. -/
lemma mem_extractStep (env : String → Option String) (config : List (String × String))
    (key k v : String) (h : (k, v) ∈ extractStep env config key) :
    (k, v) ∈ config ∨ (k = key ∧ (k = "P4PASSWD" → v = "***masked***")) := by
  cases henv : env key with
  | none =>
    simp only [extractStep, henv] at h
    exact Or.inl h
  | some w =>
    simp only [extractStep, henv] at h
    by_cases hw : strIsEmpty w
    · rw [if_pos hw] at h; exact Or.inl h
    · rw [if_neg hw] at h
      rcases mem_objInsert _ _ _ _ _ h with h' | ⟨rfl, rfl⟩
      · exact Or.inl h'
      · refine Or.inr ⟨rfl, fun hp => ?_⟩
        rw [if_pos hp]

/-- Membership after folding `extractStep` over a key list comes from the
accumulator or from one of the keys, masked for the password key. -/
lemma mem_extract_foldl (env : String → Option String) (keys : List String)
    (acc : List (String × String)) (k v : String)
    (h : (k, v) ∈ keys.foldl (extractStep env) acc) :
    (k, v) ∈ acc ∨ (k ∈ keys ∧ (k = "P4PASSWD" → v = "***masked***")) := by
  induction keys generalizing acc with
  | nil => exact Or.inl h
  | cons key keys ih =>
    rcases ih (extractStep env acc key) h with h' | ⟨hk, hmask⟩
    · rcases mem_extractStep env acc key k v h' with h'' | ⟨rfl, hmask⟩
      · exact Or.inl h''
      · exact Or.inr ⟨List.mem_cons_self _ _, hmask⟩
    · exact Or.inr ⟨List.mem_cons_of_mem _ hk, hmask⟩

/-- Claim C8: the echoed connection details contain only allow-listed keys,
any password entry carries only the masked placeholder, and two effective
environments differing only in their (non-empty) password values produce
identical echoed details. -/
theorem extractConfig_redaction :
    (∀ (env : String → Option String) (k v : String),
      (k, v) ∈ extractConfigFromEnv env →
      k ∈ configKeys ∧ (k = "P4PASSWD" → v = "***masked***")) ∧
    (∀ e1 e2 : String → Option String,
      (∀ k, k ≠ "P4PASSWD" → e1 k = e2 k) →
      (∃ v, e1 "P4PASSWD" = some v ∧ strIsEmpty v = false) →
      (∃ v, e2 "P4PASSWD" = some v ∧ strIsEmpty v = false) →
      extractConfigFromEnv e1 = extractConfigFromEnv e2) := by
  constructor
  · intro env k v h
    rcases mem_extract_foldl env configKeys [] k v h with h' | h'
    · simp at h'
    · exact h'
  · intro e1 e2 hagree hp1 hp2
    obtain ⟨v1, hv1, hn1⟩ := hp1
    obtain ⟨v2, hv2, hn2⟩ := hp2
    simp [extractConfigFromEnv, configKeys, extractStep,
      hagree "P4PORT" (by decide), hagree "P4USER" (by decide),
      hagree "P4CLIENT" (by decide), hagree "P4CHARSET" (by decide), hv1, hv2,
      hn1, hn2]

/-- A concrete environment pair differing only in the password value. -/
def envA : String → Option String := fun k =>
  if k = "P4PASSWD" then some "hunter2" else if k = "P4USER" then some "alice" else none

/-- Same as `envA` with a different non-empty password. -/
def envB : String → Option String := fun k =>
  if k = "P4PASSWD" then some "hunter3" else if k = "P4USER" then some "alice" else none

/-- Witness for C8 at the concrete environment pair. -/
theorem extractConfig_redaction_witness :
    extractConfigFromEnv envA = extractConfigFromEnv envB ∧
    ("P4USER" ∈ configKeys ∧ ("P4USER" = "P4PASSWD" → "alice" = "***masked***")) :=
  ⟨extractConfig_redaction.2 envA envB
      (fun k hk => by simp [envA, envB, hk])
      ⟨"hunter2", by simp [envA], by decide⟩
      ⟨"hunter3", by simp [envB], by decide⟩,
   extractConfig_redaction.1 envA "P4USER" "alice" (by decide)⟩

/-- Checks within the window and under the limit keep incrementing the stored
count without blocking or resetting. -/
lemma runChecks_within_window (cfg : RateLimitConfig) (W : Nat) (ts : List Nat) (k : Nat)
    (hts : ∀ t ∈ ts, t ≤ W) (hcount : k + ts.length ≤ cfg.maxRequests) :
    runChecks true cfg ts (some ⟨k, W, none⟩) = some ⟨k + ts.length, W, none⟩ := by
  induction ts generalizing k with
  | nil => simp [runChecks]
  | cons t ts ih =>
    have ht : t ≤ W := hts t (List.mem_cons_self _ _)
    have hnw : ¬ t > W := by omega
    have hnc : ¬ k + 1 > cfg.maxRequests := by
      simp at hcount
      omega
    have hstep : (checkRateLimit true cfg t (some ⟨k, W, none⟩)).2 = some ⟨k + 1, W, none⟩ := by
      simp [checkRateLimit, hnw, hnc]
    have hfold : runChecks true cfg (t :: ts) (some ⟨k, W, none⟩) =
        runChecks true cfg ts (checkRateLimit true cfg t (some ⟨k, W, none⟩)).2 := rfl
    rw [hfold, hstep]
    have := ih (k + 1) (fun u hu => hts u (List.mem_cons_of_mem _ hu)) (by simp at hcount ⊢; omega)
    rw [this]
    congr 2
    simp
    omega

/-- Claim C2 (amended): with rate limiting enabled and maximum N, the (N+1)-th
check within one window is rejected with block-until = now + block-duration (a
future timestamp when the block duration is positive); and a later check
performed once now is at or past block-until AND strictly past the stored
window reset time is allowed and resets the stored count to 1, resetting the
window.  (The extra window condition is forced by the code: at or past
block-until but still inside the stored window, the counter is re-incremented
and the identifier re-blocked - see the counterexample.) -/
theorem rate_limit_block_then_windowed_reset (cfg : RateLimitConfig) (t0 tN : Nat)
    (ts : List Nat) (sN : Option RateRecord)
    (hlen : ts.length + 1 = cfg.maxRequests)
    (hts : ∀ t ∈ ts, t ≤ t0 + cfg.windowMs)
    (htN : tN ≤ t0 + cfg.windowMs)
    (hdur : 0 < cfg.blockDurationMs)
    (hsN : sN = runChecks true cfg ts (checkRateLimit true cfg t0 none).2) :
    (checkRateLimit true cfg tN sN).1.allowed = false ∧
    (checkRateLimit true cfg tN sN).1.blockedUntil = some (tN + cfg.blockDurationMs) ∧
    tN < tN + cfg.blockDurationMs ∧
    (∀ tU, tN + cfg.blockDurationMs ≤ tU → t0 + cfg.windowMs < tU →
      (checkRateLimit true cfg tU (checkRateLimit true cfg tN sN).2).1.allowed = true ∧
      (checkRateLimit true cfg tU (checkRateLimit true cfg tN sN).2).2 =
        some ⟨1, tU + cfg.windowMs, none⟩) := by
  have h0 : (checkRateLimit true cfg t0 none).2 = some ⟨1, t0 + cfg.windowMs, none⟩ := by
    simp [checkRateLimit]
  have hone : 1 + ts.length = cfg.maxRequests := by omega
  have hN : sN = some ⟨cfg.maxRequests, t0 + cfg.windowMs, none⟩ := by
    rw [hsN, h0, runChecks_within_window cfg (t0 + cfg.windowMs) ts 1 hts (by omega), hone]
  have hnw : ¬ tN > t0 + cfg.windowMs := by omega
  have hc : cfg.maxRequests + 1 > cfg.maxRequests := by omega
  have hblock : checkRateLimit true cfg tN sN =
      ({ allowed := false, remaining := 0, resetTime := t0 + cfg.windowMs,
         blockedUntil := some (tN + cfg.blockDurationMs) },
       some ⟨cfg.maxRequests + 1, t0 + cfg.windowMs, some (tN + cfg.blockDurationMs)⟩) := by
    rw [hN]
    simp [checkRateLimit, hnw, hc]
  refine ⟨by rw [hblock], by rw [hblock], by omega, ?_⟩
  intro tU h1 h2
  rw [hblock]
  have hnb : ¬ tU < tN + cfg.blockDurationMs := by omega
  simp [checkRateLimit, hnb, h2]

/-- Witness for the amended C2 at a concrete configuration and check trace. -/
theorem rate_limit_block_then_windowed_reset_witness :
    (checkRateLimit true ⟨2, 1000, 500⟩ 20
      (runChecks true ⟨2, 1000, 500⟩ [10]
        (checkRateLimit true ⟨2, 1000, 500⟩ 0 none).2)).1.allowed = false ∧
    (checkRateLimit true ⟨2, 1000, 500⟩ 1500
      (checkRateLimit true ⟨2, 1000, 500⟩ 20
        (runChecks true ⟨2, 1000, 500⟩ [10]
          (checkRateLimit true ⟨2, 1000, 500⟩ 0 none).2)).2).2 =
      some ⟨1, 1500 + 1000, none⟩ := by
  have h := rate_limit_block_then_windowed_reset ⟨2, 1000, 500⟩ 0 20 [10] _
    (by decide) (by decide) (by decide) (by decide) rfl
  exact ⟨h.1, (h.2.2.2 1500 (by decide) (by decide)).2⟩

/-- If a path with a final component split off extends `anc`, then the path
without that final component still extends `anc`. -/
lemma append_snoc_split (anc : List String) :
    ∀ (l t : List String) (a : String), anc ++ t = l ++ [a] → t ≠ [] →
      ∃ u, l = anc ++ u := by
  induction anc with
  | nil => exact fun l t a _ _ => ⟨l, rfl⟩
  | cons x anc ih =>
    intro l t a h ht
    cases l with
    | nil =>
      simp at h
      obtain ⟨-, -, h3⟩ := h
      exact absurd h3 ht
    | cons y l =>
      simp at h
      obtain ⟨rfl, h2⟩ := h
      obtain ⟨u, hu⟩ := ih l t a h2 ht
      exact ⟨u, by simp [hu]⟩

/-- `searchUpward` returns exactly the ancestor directory holding the config
file when that file exists nowhere deeper along the chain. -/
lemma searchUpward_finds_ancestor (ex : List String → Bool) (name : String)
    (anc : List String) :
    ∀ start : List String, (∃ t, start = anc ++ t) → ex (anc ++ [name]) = true →
      (∀ p, (∃ u, start = p ++ u) → (∃ w, p = anc ++ w) → p ≠ anc →
        ex (p ++ [name]) = false) →
      searchUpward ex name start = some anc := by
  intro start
  induction start using List.reverseRecOn with
  | nil =>
    intro hanc hex _
    obtain ⟨t, ht⟩ := hanc
    obtain ⟨h1, -⟩ := List.append_eq_nil.mp ht.symm
    subst h1
    rw [searchUpward]
    simp at hex
    simp [hex]
  | append_singleton l a ih =>
    intro hanc hex honly
    by_cases hcase : anc = l ++ [a]
    · subst hcase
      rw [searchUpward]
      have hne : ¬ (l ++ [a] = ([] : List String)) := by simp
      have hex2 : ex (l ++ [a, name]) = true := by simpa using hex
      simp [hne, hex2]
    · obtain ⟨t, ht⟩ := hanc
      have ht' : t ≠ [] := by
        rintro rfl
        simp at ht
        exact hcase ht.symm
      obtain ⟨u, hu⟩ := append_snoc_split anc l t a ht.symm ht'
      have hnotex : ex ((l ++ [a]) ++ [name]) = false :=
        honly (l ++ [a]) ⟨[], by simp⟩ ⟨t, ht⟩ (fun e => hcase e.symm)
      simp only [List.append_assoc, List.singleton_append] at hnotex
      rw [searchUpward]
      have hne : ¬ (l ++ [a] = ([] : List String)) := by simp
      rw [dif_neg hne, if_neg (by simp [hnotex]), List.dropLast_concat]
      exact ih ⟨u, hu⟩ hex
        (fun p ⟨w, hw⟩ hanc2 hne2 =>
          honly p ⟨w ++ [a], by rw [hw, List.append_assoc]⟩ hanc2 hne2)

/-- Claim C6: `findConfig` never propagates a filesystem failure - an
exhausted search or a read that throws yields exactly the degraded result
(found=false, empty config, environment holding only the `P4CONFIG` marker;
access errors are already swallowed per-directory inside the search) - and
when the config file exists only in an ancestor directory of the start path
(the filesystem root included) and is readable, the result is found=true with
that ancestor as project root. -/
theorem findConfig_degrades_and_finds_ancestor :
    (∀ (fs : FSModel) (startPath : List String) (configName : String),
      searchUpward fs.ex configName startPath = none →
      findConfig fs startPath configName =
        { found := false, configPath := none, projectRoot := none, config := [],
          environment := [("P4CONFIG", configName)] }) ∧
    (∀ (fs : FSModel) (startPath root : List String) (configName : String),
      searchUpward fs.ex configName startPath = some root →
      fs.read (root ++ [configName]) = .error () →
      findConfig fs startPath configName =
        { found := false, configPath := none, projectRoot := none, config := [],
          environment := [("P4CONFIG", configName)] }) ∧
    (∀ (fs : FSModel) (startPath anc : List String) (configName content : String),
      (∃ t, startPath = anc ++ t) →
      fs.ex (anc ++ [configName]) = true →
      (∀ p, (∃ u, startPath = p ++ u) → (∃ w, p = anc ++ w) → p ≠ anc →
        fs.ex (p ++ [configName]) = false) →
      fs.read (anc ++ [configName]) = .ok content →
      (findConfig fs startPath configName).found = true ∧
      (findConfig fs startPath configName).projectRoot = some anc) := by
  refine ⟨?_, ?_, ?_⟩
  · intro fs startPath configName h
    simp [findConfig, h, configNotFound]
  · intro fs startPath root configName h hr
    simp [findConfig, h, hr, configNotFound]
  · intro fs startPath anc configName content hanc hex honly hread
    have hs := searchUpward_finds_ancestor fs.ex configName anc startPath hanc hex honly
    simp [findConfig, hs, hread]

/-- A filesystem with the config file only at the root directory. -/
def fsRootOnly : FSModel :=
  { ex := fun p => decide (p = [".p4config"]),
    read := fun p => if p = [".p4config"] then .ok "P4PORT=server:1666\n" else .error () }

/-- A filesystem on which every operation fails. -/
def fsAllFail : FSModel :=
  { ex := fun _ => false, read := fun _ => .error () }

/-- Witness for C6: the failing filesystem degrades, and the root-only
filesystem is found from the start path `/a` with the root as project root. -/
theorem findConfig_degrades_and_finds_ancestor_witness :
    findConfig fsAllFail ["a"] ".p4config" =
      { found := false, configPath := none, projectRoot := none, config := [],
        environment := [("P4CONFIG", ".p4config")] } ∧
    (findConfig fsRootOnly ["a"] ".p4config").found = true ∧
    (findConfig fsRootOnly ["a"] ".p4config").projectRoot = some ([] : List String) := by
  refine ⟨findConfig_degrades_and_finds_ancestor.1 fsAllFail ["a"] ".p4config" ?_, ?_⟩
  · simp [searchUpward, fsAllFail]
  · have h := findConfig_degrades_and_finds_ancestor.2.2 fsRootOnly ["a"] [] ".p4config"
      "P4PORT=server:1666\n" ⟨["a"], rfl⟩ (by decide) ?_ (by rfl)
    · exact ⟨h.1, h.2⟩
    · intro p hp _ hne
      obtain ⟨u, hu⟩ := hp
      cases p with
      | nil => exact absurd rfl hne
      | cons x p' =>
        simp at hu
        obtain ⟨hx, hp', hu'⟩ := hu
        subst hx
        subst hp'
        decide
